import Mathlib

/-!
Shallow embedding of the collaboration session broker
(packages/collaboration/src/server plus the unnamed server variants):
data model, message relay, room manager, credentials and the
session-join HTTP route, with theorems checking the specification
claims against these definitions.
-/

namespace Collab

/-- User identity record from server/types.ts: server-assigned id, display
name, optional email. -/
structure User where
  id : String
  name : String
  email : Option String
deriving Repr, DecidableEq

/-- A connected peer: broker-assigned peer id (nanoid(24), unique broker-wide)
plus the user identity.  The source peer also owns a channel; channel writes
are modelled by the effect lists returned from operations, and JS object
identity of peers is modelled by the peer id, which is valid because peer ids
are unique among live peers. -/
structure PeerData where
  pid : String
  user : User
deriving Repr, DecidableEq

/-- Public projection of a peer (PeerImpl.toProtocol): id, user name, email. -/
structure PeerProtocol where
  id : String
  name : String
  email : Option String
deriving Repr, DecidableEq

/-- PeerImpl.toProtocol from the unnamed peer implementation. -/
def PeerData.toProtocol (p : PeerData) : PeerProtocol :=
  { id := p.pid, name := p.user.name, email := p.user.email }

/-- Protocol version constant from common/protocol.ts. -/
def VERSION : String := "0.1.0"

/-- Message correlation id: the protocol allows numbers or strings
(common/protocol.ts RequestMessage.id). -/
inductive MsgId where
  | num (n : Int)
  | str (s : String)
deriving Repr, DecidableEq

/-- JS coercion message.id.toString() used by MessageRelay.pushResponse to key
the request map. -/
def MsgId.asString : MsgId → String
  | MsgId.num n => toString n
  | MsgId.str s => s

/-- Opaque method parameter values (the unknown[] params array): enough
structure for the payloads the broker itself builds. -/
inductive ParamValue where
  | str (s : String)
  | user (u : User)
  | peer (p : PeerProtocol)
deriving Repr, DecidableEq

/-- Request envelope (common/protocol.ts). -/
structure RequestMessage where
  version : String
  id : MsgId
  method : String
  params : List ParamValue
deriving Repr, DecidableEq

/-- Response envelope; the response value is kept opaque as a string. -/
structure ResponseMessage where
  version : String
  id : MsgId
  response : String
deriving Repr, DecidableEq

/-- Response-error envelope. -/
structure ResponseErrorMessage where
  version : String
  id : MsgId
  message : String
deriving Repr, DecidableEq

/-- Notification envelope. -/
structure NotificationMessage where
  version : String
  method : String
  params : List ParamValue
deriving Repr, DecidableEq

/-- Broadcast envelope; clientId names the originating peer. -/
structure BroadcastMessage where
  version : String
  clientId : String
  method : String
  params : List ParamValue
deriving Repr, DecidableEq

/-- BroadcastMessage.create from common/protocol.ts. -/
def BroadcastMessage.create (method clientId : String) (params : List ParamValue) :
    BroadcastMessage :=
  { version := VERSION, clientId := clientId, method := method, params := params }

/-- NotificationMessage.create from common/protocol.ts. -/
def NotificationMessage.create (method : String) (params : List ParamValue) :
    NotificationMessage :=
  { version := VERSION, method := method, params := params }

/-- Method name of Messages.Peer.Join. -/
def peerJoinMethod : String := "peer/join"

/-- Method name of Messages.Peer.Info. -/
def peerInfoMethod : String := "peer/info"

/-- Method name of Messages.Room.Joined. -/
def roomJoinedMethod : String := "room/joined"

/-- Method name of Messages.Room.Left. -/
def roomLeftMethod : String := "room/left"

/-- Method name of Messages.Room.Closed. -/
def roomClosedMethod : String := "room/closed"

/-! ### Insertion-ordered association lists modelling JS Map

JS Map keeps at most one entry per key; these operations preserve that, and
well-formedness (no duplicate keys) is carried as a hypothesis where a proof
needs it. -/

deriving instance DecidableEq for Except

/-- JS Map.get. -/
def mapGet {α : Type} (m : List (String × α)) (k : String) : Option α :=
  match m with
  | [] => none
  | (k2, v) :: rest => if k2 = k then some v else mapGet rest k

/-- JS Map.set: overwrite in place when the key exists, append otherwise. -/
def mapSet {α : Type} (m : List (String × α)) (k : String) (v : α) :
    List (String × α) :=
  match m with
  | [] => [(k, v)]
  | (k2, v2) :: rest => if k2 = k then (k, v) :: rest else (k2, v2) :: mapSet rest k v

/-- JS Map.delete (keys are unique in a JS Map, so removing the first match
is removal of the only match). -/
def mapDelete {α : Type} (m : List (String × α)) (k : String) :
    List (String × α) :=
  match m with
  | [] => []
  | (k2, v2) :: rest => if k2 = k then rest else (k2, v2) :: mapDelete rest k

theorem mapGet_mapSet_self {α : Type} (m : List (String × α)) (k : String) (v : α) :
    mapGet (mapSet m k v) k = some v := by
  induction m with
  | nil => simp [mapSet, mapGet]
  | cons h t ih =>
      obtain ⟨k2, v2⟩ := h
      by_cases hk : k2 = k
      · simp [mapSet, mapGet, hk]
      · simp [mapSet, mapGet, hk, ih]

theorem mapGet_mapSet_ne {α : Type} (m : List (String × α)) (k j : String) (v : α)
    (h : j ≠ k) : mapGet (mapSet m k v) j = mapGet m j := by
  induction m with
  | nil =>
      have hkj : ¬ k = j := fun hh => h hh.symm
      simp [mapSet, mapGet, hkj]
  | cons hd t ih =>
      obtain ⟨k2, v2⟩ := hd
      by_cases hk : k2 = k
      · subst hk
        have hkj : ¬ k2 = j := fun hh => h hh.symm
        simp [mapSet, mapGet, hkj]
      · by_cases hj : k2 = j
        · subst hj
          simp [mapSet, mapGet, hk]
        · simp [mapSet, mapGet, hk, hj, ih]

theorem mapGet_none_mapDelete {α : Type} (m : List (String × α)) (k j : String)
    (h : mapGet m k = none) : mapGet (mapDelete m j) k = none := by
  induction m with
  | nil => simp [mapDelete, mapGet]
  | cons hd t ih =>
      obtain ⟨k2, v2⟩ := hd
      by_cases hk : k2 = k
      · simp [mapGet, hk] at h
      · by_cases hj : k2 = j
        · simp [mapGet, hk] at h
          simp [mapDelete, hj, h]
        · simp [mapGet, hk] at h
          simp [mapDelete, mapGet, hj, hk, ih h]

theorem mapDelete_mapSet_fresh {α : Type} (m : List (String × α)) (k : String) (v : α)
    (h : mapGet m k = none) : mapDelete (mapSet m k v) k = m := by
  induction m with
  | nil => simp [mapSet, mapDelete]
  | cons hd t ih =>
      obtain ⟨k2, v2⟩ := hd
      by_cases hk : k2 = k
      · simp [mapGet, hk] at h
      · simp [mapGet, hk] at h
        simp [mapSet, mapDelete, hk, ih h]

/-- Keys of an association list. -/
def mapKeys {α : Type} (m : List (String × α)) : List String :=
  m.map Prod.fst

theorem mapGet_mapDelete_self {α : Type} (m : List (String × α)) (k : String)
    (hnd : (mapKeys m).Nodup) : mapGet (mapDelete m k) k = none := by
  induction m with
  | nil => simp [mapDelete, mapGet]
  | cons hd t ih =>
      obtain ⟨k2, v2⟩ := hd
      simp only [mapKeys, List.map_cons, List.nodup_cons] at hnd
      by_cases hk : k2 = k
      · subst hk
        cases hget : mapGet t k2 with
        | none => simp [mapDelete, hget]
        | some v =>
            exfalso
            apply hnd.1
            clear ih hnd
            induction t with
            | nil => simp [mapGet] at hget
            | cons hd2 t2 ih2 =>
                obtain ⟨k3, v3⟩ := hd2
                by_cases hk3 : k3 = k2
                · simp [hk3]
                · simp [mapGet, hk3] at hget
                  simp [ih2 hget]
      · simp [mapDelete, mapGet, hk, ih hnd.2]

/-! ### Message relay (src/unnamed/part_009 MessageRelay)

The Deferred returned by sendRequest outlives the table entry, so the state
splits the map entries (requestMap) from the settlement state of each
deferred (settlements, keyed by the same correlation key and never deleted,
mirroring the promise object lifetime). -/

/-- Settlement state of a Deferred: the first resolve or reject wins, later
calls are no-ops. -/
inductive DState where
  | pending
  | resolved (v : String)
  | rejected (msg : String)
deriving Repr, DecidableEq

/-- Deferred.resolve. -/
def DState.resolve (d : DState) (v : String) : DState :=
  match d with
  | DState.pending => DState.resolved v
  | d => d

/-- Deferred.reject. -/
def DState.reject (d : DState) (m : String) : DState :=
  match d with
  | DState.pending => DState.rejected m
  | d => d

/-- RelayedRequest entry of the requestMap: original request id kept for
back-translation, and the absolute expiry instant of the armed timer. -/
structure RelayedRequest where
  id : MsgId
  expiresAt : Nat
deriving Repr, DecidableEq

/-- Relay state: the pending-request table and the deferred settlements. -/
structure RelayState where
  requestMap : List (String × RelayedRequest)
  settlements : List (String × DState)
deriving Repr, DecidableEq

/-- Empty relay. -/
def RelayState.empty : RelayState := { requestMap := [], settlements := [] }

/-- Timer duration armed by MessageRelay.sendRequest: 300_000 milliseconds in
the source. -/
def relayTimeoutMillis : Nat := 300000

/-- The dispose closure created by sendRequest for correlation key: delete the
map entry, cancel the timer, and reject the deferred with the timeout error
(the rejection is a no-op when the deferred is already settled). -/
def relayDispose (st : RelayState) (key : String) : RelayState :=
  { requestMap := mapDelete st.requestMap key
    settlements :=
      match mapGet st.settlements key with
      | some d => mapSet st.settlements key (d.reject "Request timed out")
      | none => st.settlements }

/-- Result of sendRequest: the relay state after insertion and the envelope
written to the target channel. -/
structure SendRequestResult where
  state : RelayState
  sent : RequestMessage
deriving Repr, DecidableEq

/-- MessageRelay.sendRequest: allocate a correlation key (nanoid(24), modelled
as the key argument with freshness as a hypothesis), create the deferred,
arm the timer for now + 300000 ms, insert the entry, and forward the message
with its id replaced by the key. -/
def sendRequest (st : RelayState) (now : Nat) (key : String) (msg : RequestMessage) :
    SendRequestResult :=
  { state :=
      { requestMap := mapSet st.requestMap key { id := msg.id, expiresAt := now + relayTimeoutMillis }
        settlements := mapSet st.settlements key DState.pending }
    sent := { msg with id := MsgId.str key } }

/-- Expiry of the timer armed by sendRequest for correlation key.  The
setTimeout callback is the dispose closure itself; it can only run while the
entry is still present, because every path that removes the entry goes
through dispose, which clears the timer. -/
def timerFire (st : RelayState) (key : String) : RelayState :=
  match mapGet st.requestMap key with
  | some _ => relayDispose st key
  | none => st

/-- Inbound reply envelope handed to pushResponse: a response or a
response-error (discriminated by the kind field in the source). -/
inductive InboundResponse where
  | ok (msg : ResponseMessage)
  | err (msg : ResponseErrorMessage)
deriving Repr, DecidableEq

/-- Correlation id of an inbound reply. -/
def InboundResponse.id : InboundResponse → MsgId
  | InboundResponse.ok m => m.id
  | InboundResponse.err m => m.id

/-- MessageRelay.pushResponse: look up the entry keyed by id.toString(); when
absent, do nothing; when found, resolve the deferred with the response value
(Response) or reject it with the enclosed message (ResponseError), then run
the dispose closure. -/
def pushResponse (st : RelayState) (msg : InboundResponse) : RelayState :=
  match mapGet st.requestMap msg.id.asString with
  | none => st
  | some _ =>
      let key := msg.id.asString
      let st1 : RelayState :=
        { st with settlements :=
            match mapGet st.settlements key with
            | some d =>
                mapSet st.settlements key
                  (match msg with
                   | InboundResponse.ok m => d.resolve m.response
                   | InboundResponse.err m => d.reject m.message)
            | none => st.settlements }
      relayDispose st1 key

/-- Relay failure raised synchronously by sendBroadcast when the origin has no
room. -/
inductive RelayError where
  | noRoom
deriving Repr, DecidableEq

/-- Room record (RoomImpl fields): id, host peer, guests in join order. -/
structure Room where
  id : String
  host : PeerData
  guests : List PeerData
deriving Repr, DecidableEq

/-- RoomImpl.peers getter: the ordered union of host and guests. -/
def Room.peers (r : Room) : List PeerData := r.host :: r.guests

/-- MessageRelay.sendBroadcast: resolve the origin room (the origin.room
accessor, passed here as roomOfOrigin), fail NoRoom when absent, stamp
msg.clientId with the origin peer id, and write the stamped envelope to the
channel of every peer of the room except the origin, in peers-list order.
Returns the stamped envelope and the ordered delivery list (target peer id,
delivered envelope). -/
def sendBroadcast (roomOfOrigin : Option Room) (origin : PeerData) (msg : BroadcastMessage) :
    Except RelayError (BroadcastMessage × List (String × BroadcastMessage)) :=
  match roomOfOrigin with
  | none => Except.error RelayError.noRoom
  | some room =>
      let stamped := { msg with clientId := origin.pid }
      Except.ok (stamped,
        (room.peers.filter (fun p => p.pid != origin.pid)).map (fun p => (p.pid, stamped)))

/-! ### Credentials (CredentialsManager, src/unnamed/part_007)

The jose HMAC-SHA256 signature is modelled symbolically as an ideal MAC:
a tag is a free constructor recording the key and the signed input, so two
tags are equal exactly when the key and input are.  This is the standard
symbolic treatment of an unforgeable, collision-free MAC, which is what the
cryptographic assumption on HMAC-SHA256 provides. -/

/-- JWT claim set in play here: the RoomClaim fields (room, user, host) plus
the iat (issued-at) claim that jose setIssuedAt() adds before signing.
An absent JSON field is none. -/
structure Claims where
  room : Option String
  user : Option User
  host : Option Bool
  iat : Option Nat
deriving Repr, DecidableEq

/-- Ideal MAC tag over a claim set. -/
structure MacTag where
  secret : String
  alg : String
  signed : Claims
deriving Repr, DecidableEq

/-- A signed token: protected header (alg), payload, signature. -/
structure Jwt where
  alg : String
  payload : Claims
  sig : MacTag
deriving Repr, DecidableEq

/-- Verification failure (thrown by jose.jwtVerify, surfaced as AuthInvalid). -/
inductive AuthError where
  | authInvalid
deriving Repr, DecidableEq

/-- CredentialsManager.generateJwt: header alg HS256, setIssuedAt (which adds
or overwrites the iat claim with the current time), sign with the broker-wide
secret.  getJwtExpiration returns undefined in the source, so no exp claim is
ever set. -/
def generateJwt (secret : String) (now : Nat) (payload : Claims) : Jwt :=
  let p := { payload with iat := some now }
  { alg := "HS256", payload := p, sig := { secret := secret, alg := "HS256", signed := p } }

/-- CredentialsManager.verifyJwt via jose.jwtVerify: recompute the MAC over
the presented header and payload with the broker key and compare against the
attached signature; any mismatch is the AuthInvalid failure. -/
def verifyJwt (secret : String) (t : Jwt) : Except AuthError Claims :=
  if t.sig = { secret := secret, alg := t.alg, signed := t.payload } then
    Except.ok t.payload
  else
    Except.error AuthError.authInvalid

/-! ### Room manager (src/packages/collaboration/src/server/room-manager.ts)

JS Room objects are shared mutable references: the rooms map and the peer
index both hold references to the same RoomImpl.  The model makes the heap
explicit: Room values live in an allocation list addressed by index, and both
maps store addresses. -/

/-- Close handler registered on a peer channel by RoomManager.join: the host
handler calls closeRoom, the guest handler broadcasts room/left. -/
inductive CloseHandler where
  | hostClose (roomId : String)
  | guestLeft (peer : PeerData)
deriving Repr, DecidableEq

/-- RoomManager state: allocated Room objects, the rooms map (room id to
address), the peer index (field name peers in the source: peer id to address)
and the registered channel close handlers. -/
structure RMState where
  heap : List Room
  rooms : List (String × Nat)
  peers : List (String × Nat)
  onClose : List (String × CloseHandler)
deriving Repr, DecidableEq

/-- Initial empty room manager. -/
def RMState.empty : RMState := { heap := [], rooms := [], peers := [], onClose := [] }

/-- RoomManager.getRoomById. -/
def getRoomById (st : RMState) (id : String) : Option Room :=
  (mapGet st.rooms id).bind (fun a => st.heap.get? a)

/-- RoomManager.getRoomByPeerId (lookup through the peers index). -/
def getRoomByPeerId (st : RMState) (pid : String) : Option Room :=
  (mapGet st.peers pid).bind (fun a => st.heap.get? a)

/-- Observable channel activity of a room-manager operation. -/
inductive Effect where
  | deliver (target : String) (msg : BroadcastMessage)
  | notify (target : String) (msg : NotificationMessage)
  | closeChannel (pid : String)
deriving Repr, DecidableEq

/-- RoomManager.closeRoom: when the id is known, broadcast room/closed from
the host (the relay resolves the origin room through the peer index), then
for each member delete it from the peer index and close its channel, then
delete the rooms entry.  Unknown ids are a no-op.  A NoRoom throw from the
broadcast would escape before any removal, leaving the state unchanged. -/
def closeRoom (st : RMState) (id : String) : RMState × List Effect :=
  match mapGet st.rooms id with
  | none => (st, [])
  | some addr =>
    match st.heap.get? addr with
    | none => (st, [])
    | some room =>
      match sendBroadcast (getRoomByPeerId st room.host.pid) room.host
          (BroadcastMessage.create roomClosedMethod room.host.pid []) with
      | Except.error _ => (st, [])
      | Except.ok (_, dels) =>
          ({ st with
              peers := room.peers.foldl (fun m p => mapDelete m p.pid) st.peers
              rooms := mapDelete st.rooms id },
           dels.map (fun d => Effect.deliver d.1 d.2) ++
             room.peers.map (fun p => Effect.closeChannel p.pid))

/-- Failure of RoomManager.join. -/
inductive JoinError where
  | roomNotFound
  | relay (e : RelayError)
deriving Repr, DecidableEq

/-- RoomManager.join.  Host flag true: construct RoomImpl(roomId, peer),
install it in the rooms map and the peer index, register the closeRoom close
handler.  Host flag false: look up the room (RoomNotFound when absent), index
the peer, append it to guests, broadcast room/joined with the public
projection, register the room/left close handler.  Both branches then notify
the joining peer of its own projection via peer/info and return the room. -/
def join (st : RMState) (peer : PeerData) (roomId : String) (host : Bool) :
    Except JoinError (RMState × Room × List Effect) :=
  if host then
    let room : Room := { id := roomId, host := peer, guests := [] }
    let addr := st.heap.length
    let st1 : RMState :=
      { st with
          heap := st.heap ++ [room]
          rooms := mapSet st.rooms roomId addr
          peers := mapSet st.peers peer.pid addr
          onClose := mapSet st.onClose peer.pid (CloseHandler.hostClose roomId) }
    Except.ok (st1, room,
      [Effect.notify peer.pid
        (NotificationMessage.create peerInfoMethod [ParamValue.peer peer.toProtocol])])
  else
    match mapGet st.rooms roomId with
    | none => Except.error JoinError.roomNotFound
    | some addr =>
      match st.heap.get? addr with
      | none => Except.error JoinError.roomNotFound
      | some room0 =>
        let room1 := { room0 with guests := room0.guests ++ [peer] }
        let st1 : RMState :=
          { st with
              heap := st.heap.set addr room1
              peers := mapSet st.peers peer.pid addr }
        match sendBroadcast (getRoomByPeerId st1 peer.pid) peer
            (BroadcastMessage.create roomJoinedMethod peer.pid
              [ParamValue.peer peer.toProtocol]) with
        | Except.error e => Except.error (JoinError.relay e)
        | Except.ok (_, dels) =>
            let st2 := { st1 with onClose := mapSet st1.onClose peer.pid (CloseHandler.guestLeft peer) }
            Except.ok (st2, room1,
              dels.map (fun d => Effect.deliver d.1 d.2) ++
                [Effect.notify peer.pid
                  (NotificationMessage.create peerInfoMethod [ParamValue.peer peer.toProtocol])])

/-- Channel close event for peer pid: run the close handler registered by
RoomManager.join (host: closeRoom the room; guest: broadcast room/left with
the public projection, with no membership change).  Peers without a handler
are a no-op. -/
def channelClose (st : RMState) (pid : String) : RMState × List Effect :=
  match mapGet st.onClose pid with
  | none => (st, [])
  | some (CloseHandler.hostClose roomId) => closeRoom st roomId
  | some (CloseHandler.guestLeft peer) =>
      match sendBroadcast (getRoomByPeerId st peer.pid) peer
          (BroadcastMessage.create roomLeftMethod peer.pid
            [ParamValue.peer peer.toProtocol]) with
      | Except.ok (_, ds) => (st, ds.map (fun d => Effect.deliver d.1 d.2))
      | Except.error _ => (st, [])

/-- PreparedRoom returned by prepareRoom. -/
structure PreparedRoom where
  id : String
  jwt : Jwt
deriving Repr, DecidableEq

/-- RoomManager.prepareRoom: generate a secure room id (nanoid(24), modelled
as the freshId argument), sign the host RoomClaim for it, and return both.
The rooms map, the peer index and the heap are not touched. -/
def prepareRoom (st : RMState) (secret : String) (now : Nat) (freshId : String) (user : User) :
    RMState × PreparedRoom :=
  (st,
   { id := freshId
     jwt := generateJwt secret now
       { room := some freshId, user := some user, host := some true, iat := none } })

/-- Settlement of the relayed peer/join request awaited by requestJoin: the
host answered with a boolean response, or the deferred was rejected (request
timeout, error response, channel closed). -/
inductive JoinAnswer where
  | answered (b : Bool)
  | relayRejected (m : String)
deriving Repr, DecidableEq

/-- RoomManager.requestJoin: send a peer/join request to the room host and
await the boolean.  In the source the whole await and the rejected throw sit
inside one try block, and its catch replaces every failure with the
timed-out error. -/
def requestJoin (secret : String) (now : Nat) (room : Room) (user : User)
    (answer : JoinAnswer) : Except String Jwt :=
  let tryBlock : Except String Jwt :=
    match answer with
    | JoinAnswer.answered true =>
        Except.ok (generateJwt secret now
          { room := some room.id, user := some user, host := none, iat := none })
    | JoinAnswer.answered false => Except.error "Join request has been rejected"
    | JoinAnswer.relayRejected m => Except.error m
  match tryBlock with
  | Except.ok jwt => Except.ok jwt
  | Except.error _ => Except.error "Join request has timed out"

/-- HTTP response body: a token payload from res.send on success, or the error
message text. -/
inductive HttpBody where
  | token (jwt : Jwt)
  | text (s : String)
deriving Repr, DecidableEq

/-- HTTP response of a route handler. -/
structure HttpResponse where
  status : Nat
  body : HttpBody
deriving Repr, DecidableEq

/-- POST /api/session/join/:room handler from collaboration-server.ts, after
the x-jwt user auth middleware succeeded: look up the room (unknown room id
throws), run requestJoin, send the token with the default status 200; any
thrown error is sent with status 400 and the error message as body. -/
def sessionJoinRoute (secret : String) (now : Nat) (st : RMState) (roomId : String)
    (user : User) (answer : JoinAnswer) : HttpResponse :=
  match getRoomById st roomId with
  | none =>
      { status := 400
        body := HttpBody.text ("Room with requested id " ++ roomId ++ " does not exist") }
  | some room =>
    match requestJoin secret now room user answer with
    | Except.ok jwt => { status := 200, body := HttpBody.token jwt }
    | Except.error m => { status := 400, body := HttpBody.text m }

/-- Substring test used to state facts about HTTP bodies. -/
def containsSubstr (hay needle : String) : Bool :=
  decide (needle.toList <:+: hay.toList)

/-- Broadcast branch of PeerImpl.receiveMessage: the inbound envelope is
forwarded unchanged to the relay with this peer as origin; the origin room is
resolved through the room-manager peer index. -/
def receiveBroadcast (roomOf : String → Option Room) (peer : PeerData) (msg : BroadcastMessage) :
    Except RelayError (BroadcastMessage × List (String × BroadcastMessage)) :=
  sendBroadcast (roomOf peer.pid) peer msg

/-- One room-manager operation, as a step on the broker state (effects
dropped; a join failure leaves the state unchanged, as the exception escapes
before any mutation in the failing branches). -/
inductive RMEvent where
  | joinEv (peer : PeerData) (roomId : String) (host : Bool)
  | closeRoomEv (roomId : String)
  | channelCloseEv (pid : String)
deriving Repr, DecidableEq

/-- Apply one room-manager operation to the state. -/
def rmStep (st : RMState) (e : RMEvent) : RMState :=
  match e with
  | RMEvent.joinEv p rid h =>
      match join st p rid h with
      | Except.ok (st1, _, _) => st1
      | Except.error _ => st
  | RMEvent.closeRoomEv rid => (closeRoom st rid).1
  | RMEvent.channelCloseEv pid => (channelClose st pid).1

/-! ### Concrete fixtures used by counterexamples and witnesses -/

/-- Alice, the demo host user. -/
def aliceUser : User := { id := "uidA", name := "Alice", email := none }

/-- Bob, the demo guest user. -/
def bobUser : User := { id := "uidB", name := "Bob", email := none }

/-- Carol, a second demo guest user. -/
def carolUser : User := { id := "uidC", name := "Carol", email := none }

/-- Alice's peer. -/
def alicePeer : PeerData := { pid := "pidA", user := aliceUser }

/-- Bob's peer. -/
def bobPeer : PeerData := { pid := "pidB", user := bobUser }

/-- Carol's peer. -/
def carolPeer : PeerData := { pid := "pidC", user := carolUser }

/-- State after a successful join, with the failure fallback never taken in
the fixtures below. -/
def joinSt (st : RMState) (p : PeerData) (rid : String) (h : Bool) : RMState :=
  match join st p rid h with
  | Except.ok (s, _, _) => s
  | Except.error _ => st

/-- Alice hosts room R1. -/
def demoHostSt : RMState := joinSt RMState.empty alicePeer "R1" true

/-- Alice hosts R1 and Bob has joined as guest. -/
def demoSt : RMState := joinSt demoHostSt bobPeer "R1" false

/-- The room R1 with host Alice and guest Bob, as held in demoSt. -/
def demoRoom : Room := { id := "R1", host := alicePeer, guests := [bobPeer] }

/-- A demo editor/update broadcast envelope claiming a forged clientId. -/
def demoBcast : BroadcastMessage :=
  { version := VERSION, clientId := "forged", method := "editor/update", params := [] }

example : getRoomById demoSt "R1" = some demoRoom := by decide
example : getRoomByPeerId demoSt "pidB" = some demoRoom := by decide
example : mapGet demoSt.onClose "pidB" = some (CloseHandler.guestLeft bobPeer) := by decide

/-- A demo relayed request envelope. -/
def demoReq : RequestMessage :=
  { version := VERSION, id := MsgId.num 7, method := "peer/init", params := [] }

/-- A demo guest RoomClaim payload before signing. -/
def demoClaims : Claims :=
  { room := some "R1", user := some bobUser, host := none, iat := none }

/-- A token whose payload was altered after signing, keeping the original
signature. -/
def demoTampered : Jwt :=
  { alg := "HS256"
    payload := { room := some "R2", user := some bobUser, host := none, iat := some 5 }
    sig := (generateJwt "s" 5 demoClaims).sig }

/-- C1: the claim says a false answer from the host surfaces JoinRejected,
with the HTTP 400 body of /api/session/join/:room containing "rejected", and
JoinTimeout only without an answer.  In the source the rejected throw sits
inside the same try block whose catch rethrows the timed-out error, so a
false answer is surfaced as HTTP 400 with body "Join request has timed out",
which does not contain "rejected".  This evaluates the embedded code at that
failing input. -/
theorem C1_join_rejected_surfaces_timeout :
    sessionJoinRoute "secret" 0 demoSt "R1" bobUser (JoinAnswer.answered false) =
      { status := 400, body := HttpBody.text "Join request has timed out" } ∧
    containsSubstr "Join request has timed out" "rejected" = false ∧
    requestJoin "secret" 0 demoRoom bobUser (JoinAnswer.answered false) =
      Except.error "Join request has timed out" := by decide

/-- C2 counterexample: the claim says sendRequest arms a timer of exactly 60
seconds; the entry inserted by the embedded sendRequest expires 300000 ms
after insertion, and 300000 ms is not 60 seconds. -/
theorem C2_timer_not_60s_counterexample :
    mapGet (sendRequest RelayState.empty 0 "k1" demoReq).state.requestMap "k1" =
      some { id := MsgId.num 7, expiresAt := 300000 } ∧
    relayTimeoutMillis ≠ 60 * 1000 := by decide

/-- C2 amended: sendRequest allocates a fresh correlation id, replaces the
message id with it, inserts a pending entry, and arms a timer of 300 seconds
(300000 ms); if the timer fires before any response has removed the entry,
the settlement is rejected with the request-timeout error and the entry is
removed from the relay table. -/
theorem C2_sendRequest_timeout_behavior (st : RelayState) (now : Nat) (key : String)
    (msg : RequestMessage) (hfresh : mapGet st.requestMap key = none) :
    (sendRequest st now key msg).sent = { msg with id := MsgId.str key } ∧
    mapGet (sendRequest st now key msg).state.requestMap key =
      some { id := msg.id, expiresAt := now + 300000 } ∧
    mapGet (sendRequest st now key msg).state.settlements key = some DState.pending ∧
    mapGet (timerFire (sendRequest st now key msg).state key).requestMap key = none ∧
    mapGet (timerFire (sendRequest st now key msg).state key).settlements key =
      some (DState.rejected "Request timed out") := by
  have hq : mapGet (mapSet st.requestMap key
      { id := msg.id, expiresAt := now + relayTimeoutMillis }) key =
      some { id := msg.id, expiresAt := now + relayTimeoutMillis } :=
    mapGet_mapSet_self _ _ _
  have hs : mapGet (mapSet st.settlements key DState.pending) key = some DState.pending :=
    mapGet_mapSet_self _ _ _
  refine ⟨rfl, ?_, ?_, ?_, ?_⟩
  · simpa [sendRequest, relayTimeoutMillis] using hq
  · simpa [sendRequest] using hs
  · simp only [sendRequest, timerFire, hq, relayDispose]
    rw [mapDelete_mapSet_fresh st.requestMap key _ hfresh]
    exact hfresh
  · simp only [sendRequest, timerFire, hq, relayDispose, hs]
    simpa [DState.reject] using mapGet_mapSet_self
      (mapSet st.settlements key DState.pending) key (DState.pending.reject "Request timed out")

/-- C2 witness: the amended behaviour evaluated on an empty relay at time 0
with correlation key k1. -/
theorem C2_sendRequest_timeout_behavior_witness :
    (sendRequest RelayState.empty 0 "k1" demoReq).sent = { demoReq with id := MsgId.str "k1" } ∧
    mapGet (sendRequest RelayState.empty 0 "k1" demoReq).state.requestMap "k1" =
      some { id := demoReq.id, expiresAt := 0 + 300000 } ∧
    mapGet (sendRequest RelayState.empty 0 "k1" demoReq).state.settlements "k1" =
      some DState.pending ∧
    mapGet (timerFire (sendRequest RelayState.empty 0 "k1" demoReq).state "k1").requestMap "k1" =
      none ∧
    mapGet (timerFire (sendRequest RelayState.empty 0 "k1" demoReq).state "k1").settlements "k1" =
      some (DState.rejected "Request timed out") :=
  C2_sendRequest_timeout_behavior RelayState.empty 0 "k1" demoReq (by decide)

/-- C7 counterexample: the claim says verifyJwt(generateJwt(x)) returns x; the
signing step adds the iat claim, so the decoded claims differ from x whenever
x carries no matching iat value. -/
theorem C7_roundtrip_iat_counterexample :
    verifyJwt "s" (generateJwt "s" 5 demoClaims) ≠ Except.ok demoClaims := by decide

/-- C7 amended: verifyJwt(generateJwt(x)) returns x with its iat claim set to
the signing time, every other field of x preserved; and, with HMAC-SHA256
modelled as an ideal MAC, a token whose payload was altered while keeping the
original signature fails with AuthInvalid, as does any token whose signature
is not the broker-key MAC of its own header and payload. -/
theorem C7_jwt_roundtrip_amended (secret : String) (now : Nat) (x : Claims) (t : Jwt) :
    verifyJwt secret (generateJwt secret now x) = Except.ok { x with iat := some now } ∧
    ({ x with iat := some now }).room = x.room ∧
    ({ x with iat := some now }).user = x.user ∧
    ({ x with iat := some now }).host = x.host ∧
    (t.sig = (generateJwt secret now x).sig → t.payload ≠ (generateJwt secret now x).payload →
      verifyJwt secret t = Except.error AuthError.authInvalid) ∧
    (t.sig ≠ { secret := secret, alg := t.alg, signed := t.payload } →
      verifyJwt secret t = Except.error AuthError.authInvalid) := by
  refine ⟨by simp [generateJwt, verifyJwt], rfl, rfl, rfl, ?_, ?_⟩
  · intro hsig hpay
    have hne : t.sig ≠ { secret := secret, alg := t.alg, signed := t.payload } := by
      intro heq
      apply hpay
      have h1 : ({ secret := secret, alg := t.alg, signed := t.payload } : MacTag) =
          (generateJwt secret now x).sig := heq ▸ hsig
      have h2 := congrArg MacTag.signed h1
      simpa [generateJwt] using h2
    simp [verifyJwt, hne]
  · intro hne
    simp [verifyJwt, hne]

/-- C7 witness: the amended round trip and the tamper failure evaluated on a
concrete payload and a concretely tampered token. -/
theorem C7_jwt_roundtrip_amended_witness :
    verifyJwt "s" (generateJwt "s" 5 demoClaims) =
      Except.ok { demoClaims with iat := some 5 } ∧
    verifyJwt "s" demoTampered = Except.error AuthError.authInvalid := by
  have h := C7_jwt_roundtrip_amended "s" 5 demoClaims demoTampered
  exact ⟨h.1, h.2.2.2.2.1 (by decide) (by decide)⟩

/-- C8: prepareRoom returns the freshly generated secure id together with a
jwt signing the host RoomClaim for it, and leaves the whole room-manager
state (rooms map, peer index, heap) unchanged, so getRoomById on the new id
still returns nothing until the host connects. -/
theorem C8_prepareRoom_frame (st : RMState) (secret : String) (now : Nat)
    (freshId : String) (user : User) (hfresh : mapGet st.rooms freshId = none) :
    (prepareRoom st secret now freshId user).1 = st ∧
    (prepareRoom st secret now freshId user).2.id = freshId ∧
    (prepareRoom st secret now freshId user).2.jwt =
      generateJwt secret now
        { room := some freshId, user := some user, host := some true, iat := none } ∧
    getRoomById (prepareRoom st secret now freshId user).1 freshId = none := by
  refine ⟨rfl, rfl, rfl, ?_⟩
  simp [prepareRoom, getRoomById, hfresh]

/-- C8 witness: prepareRoom for Carol on the demo state with fresh id R2. -/
theorem C8_prepareRoom_frame_witness :
    (prepareRoom demoSt "s" 3 "R2" carolUser).1 = demoSt ∧
    (prepareRoom demoSt "s" 3 "R2" carolUser).2.id = "R2" ∧
    (prepareRoom demoSt "s" 3 "R2" carolUser).2.jwt =
      generateJwt "s" 3
        { room := some "R2", user := some carolUser, host := some true, iat := none } ∧
    getRoomById (prepareRoom demoSt "s" 3 "R2" carolUser).1 "R2" = none :=
  C8_prepareRoom_frame demoSt "s" 3 "R2" carolUser (by decide)

/-- A demo response envelope correlated to key k1. -/
def demoResp : InboundResponse :=
  InboundResponse.ok { version := VERSION, id := MsgId.str "k1", response := "true" }

/-- C5: pushResponse looks up the entry by the envelope id; with no entry the
envelope is dropped silently (the state is returned unchanged and nothing is
delivered to any peer); with an entry, a Response resolves the settlement
with the response value and a ResponseError rejects it with the enclosed
message, and in both cases the entry is disposed and removed from the
table. -/
theorem C5_pushResponse_correlation (st : RelayState) (msg : InboundResponse) :
    (mapGet st.requestMap msg.id.asString = none → pushResponse st msg = st) ∧
    (∀ e, mapGet st.requestMap msg.id.asString = some e →
      (mapKeys st.requestMap).Nodup →
      mapGet st.settlements msg.id.asString = some DState.pending →
      mapGet (pushResponse st msg).requestMap msg.id.asString = none ∧
      mapGet (pushResponse st msg).settlements msg.id.asString =
        some (match msg with
              | InboundResponse.ok m => DState.resolved m.response
              | InboundResponse.err m => DState.rejected m.message)) := by
  constructor
  · intro h
    simp [pushResponse, h]
  · intro e he hnd hset
    have hdel : mapGet (mapDelete st.requestMap msg.id.asString) msg.id.asString = none :=
      mapGet_mapDelete_self _ _ hnd
    cases msg with
    | ok m =>
        simp only [InboundResponse.id] at he hset hdel
        simp [pushResponse, InboundResponse.id, he, hset, relayDispose, DState.resolve,
          DState.reject, mapGet_mapSet_self, hdel]
    | err m =>
        simp only [InboundResponse.id] at he hset hdel
        simp [pushResponse, InboundResponse.id, he, hset, relayDispose, DState.resolve,
          DState.reject, mapGet_mapSet_self, hdel]

/-- C5 witness: a response pushed into a relay holding exactly the pending
entry k1 removes the entry and resolves its settlement. -/
theorem C5_pushResponse_correlation_witness :
    mapGet (pushResponse (sendRequest RelayState.empty 0 "k1" demoReq).state demoResp).requestMap
      "k1" = none ∧
    mapGet (pushResponse (sendRequest RelayState.empty 0 "k1" demoReq).state demoResp).settlements
      "k1" = some (DState.resolved "true") := by
  have h := (C5_pushResponse_correlation (sendRequest RelayState.empty 0 "k1" demoReq).state
      demoResp).2 { id := MsgId.num 7, expiresAt := 300000 } (by decide) (by decide) (by decide)
  exact h

/-- C4: sendBroadcast with an origin belonging to no room fails NoRoom with
nothing delivered; with a room it stamps the envelope clientId with the
origin peer id and delivers the stamped envelope to the peers of the room
except the origin, in peers-list order (host first, then guests in join
order), each such peer receiving it exactly once (peer ids in a room are
unique broker-wide). -/
theorem C4_broadcast_fanout (origin : PeerData) (msg : BroadcastMessage) (room : Room)
    (p : PeerData) (hnd : (room.peers.map PeerData.pid).Nodup) (hp : p ∈ room.peers)
    (hne : p.pid ≠ origin.pid) :
    sendBroadcast none origin msg = Except.error RelayError.noRoom ∧
    sendBroadcast (some room) origin msg =
      Except.ok ({ msg with clientId := origin.pid },
        (room.peers.filter (fun q => q.pid != origin.pid)).map
          (fun q => (q.pid, { msg with clientId := origin.pid }))) ∧
    ((room.peers.filter (fun q => q.pid != origin.pid)).map
        (fun q => (q.pid, { msg with clientId := origin.pid }))).map Prod.fst =
      (room.peers.filter (fun q => q.pid != origin.pid)).map PeerData.pid ∧
    ((room.peers.filter (fun q => q.pid != origin.pid)).map PeerData.pid).count p.pid = 1 ∧
    ((room.peers.filter (fun q => q.pid != origin.pid)).map
        (fun q => (q.pid, { msg with clientId := origin.pid }))).all
      (fun d => d.2.clientId == origin.pid) = true := by
  refine ⟨rfl, rfl, by simp, ?_, ?_⟩
  · have hsub : List.Sublist ((room.peers.filter (fun q => q.pid != origin.pid)).map PeerData.pid)
        (room.peers.map PeerData.pid) :=
      List.Sublist.map PeerData.pid (List.filter_sublist room.peers)
    have hnd2 : ((room.peers.filter (fun q => q.pid != origin.pid)).map PeerData.pid).Nodup :=
      hnd.sublist hsub
    have hmemf : p ∈ room.peers.filter (fun q => q.pid != origin.pid) := by
      rw [List.mem_filter]
      exact ⟨hp, by simpa [bne_iff_ne] using hne⟩
    have hmem : p.pid ∈ (room.peers.filter (fun q => q.pid != origin.pid)).map PeerData.pid :=
      List.mem_map_of_mem PeerData.pid hmemf
    exact List.count_eq_one_of_mem hnd2 hmem
  · rw [List.all_eq_true]
    intro d hd
    rw [List.mem_map] at hd
    obtain ⟨q, hq, rfl⟩ := hd
    simp

/-- C4 witness: a broadcast from guest Bob in the demo room reaches host
Alice exactly once, and a roomless origin fails NoRoom. -/
theorem C4_broadcast_fanout_witness :
    sendBroadcast none bobPeer demoBcast = Except.error RelayError.noRoom ∧
    ((demoRoom.peers.filter (fun q => q.pid != bobPeer.pid)).map PeerData.pid).count
      alicePeer.pid = 1 := by
  have h := C4_broadcast_fanout bobPeer demoBcast demoRoom alicePeer (by decide) (by decide)
    (by decide)
  exact ⟨h.1, h.2.2.2.1⟩

/-- C9: the clientId recipients receive always equals the broker-assigned id
of the origin peer, whatever clientId the sender wrote into the envelope: two
inbound broadcasts differing only in the sender-supplied clientId produce
identical relay outcomes, and every delivered envelope carries the origin
peer id. -/
theorem C9_broadcast_no_spoof (roomOf : String → Option Room) (peer : PeerData)
    (msg : BroadcastMessage) (c1 c2 : String) :
    receiveBroadcast roomOf peer { msg with clientId := c1 } =
      receiveBroadcast roomOf peer { msg with clientId := c2 } ∧
    (∀ room, roomOf peer.pid = some room →
      receiveBroadcast roomOf peer msg =
        Except.ok ({ msg with clientId := peer.pid },
          (room.peers.filter (fun q => q.pid != peer.pid)).map
            (fun q => (q.pid, { msg with clientId := peer.pid })))) := by
  constructor
  · cases h : roomOf peer.pid with
    | none => simp [receiveBroadcast, sendBroadcast, h]
    | some room => simp [receiveBroadcast, sendBroadcast, h]
  · intro room h
    simp [receiveBroadcast, sendBroadcast, h]

/-- C9 witness: two broadcasts from Bob differing only in the forged clientId
are delivered identically in the demo room, stamped with Bob's peer id. -/
theorem C9_broadcast_no_spoof_witness :
    receiveBroadcast (getRoomByPeerId demoSt) bobPeer { demoBcast with clientId := "X" } =
      receiveBroadcast (getRoomByPeerId demoSt) bobPeer { demoBcast with clientId := "Y" } ∧
    receiveBroadcast (getRoomByPeerId demoSt) bobPeer demoBcast =
      Except.ok ({ demoBcast with clientId := bobPeer.pid },
        (demoRoom.peers.filter (fun q => q.pid != bobPeer.pid)).map
          (fun q => (q.pid, { demoBcast with clientId := bobPeer.pid }))) := by
  have h := C9_broadcast_no_spoof (getRoomByPeerId demoSt) bobPeer demoBcast "X" "Y"
  exact ⟨h.1, h.2 demoRoom (by decide)⟩

theorem mapDelete_sublist {α : Type} (m : List (String × α)) (k : String) :
    List.Sublist (mapDelete m k) m := by
  induction m with
  | nil => simp [mapDelete]
  | cons hd t ih =>
      obtain ⟨k2, v2⟩ := hd
      by_cases hk : k2 = k
      · simp only [mapDelete, hk, if_pos]
        exact List.sublist_cons_self _ _
      · simp only [mapDelete, hk, if_neg, ite_false]
        exact List.Sublist.cons₂ _ ih

theorem mapKeys_mapDelete_nodup {α : Type} (m : List (String × α)) (k : String)
    (hnd : (mapKeys m).Nodup) : (mapKeys (mapDelete m k)).Nodup :=
  hnd.sublist (List.Sublist.map Prod.fst (mapDelete_sublist m k))

theorem mapGet_foldl_delete_none {α : Type} (l : List PeerData) (m : List (String × α))
    (k : String) (h : mapGet m k = none) :
    mapGet (l.foldl (fun acc q => mapDelete acc q.pid) m) k = none := by
  induction l generalizing m with
  | nil => simpa using h
  | cons q t ih => exact ih (mapDelete m q.pid) (mapGet_none_mapDelete m k q.pid h)

theorem mapGet_foldl_delete {α : Type} (l : List PeerData) (m : List (String × α))
    (p : PeerData) (hnd : (mapKeys m).Nodup) (hp : p ∈ l) :
    mapGet (l.foldl (fun acc q => mapDelete acc q.pid) m) p.pid = none := by
  induction l generalizing m with
  | nil => cases hp
  | cons q t ih =>
      rcases List.mem_cons.mp hp with hq | ht
      · subst hq
        exact mapGet_foldl_delete_none t (mapDelete m p.pid) p.pid
          (mapGet_mapDelete_self m p.pid hnd)
      · exact ih (mapDelete m q.pid) (mapKeys_mapDelete_nodup m q.pid hnd) ht

theorem listGetLt (l : List Room) (n : Nat) (a : Room) (h : l.get? n = some a) :
    n < l.length := by
  by_contra hc
  rw [List.get?_eq_none.mpr (Nat.le_of_not_lt hc)] at h
  exact Option.noConfusion h

theorem listGetSet_self (l : List Room) (n : Nat) (a b : Room) (h : l.get? n = some b) :
    (l.set n a).get? n = some a := by
  have hlt : n < l.length := listGetLt l n b h
  rw [List.get?_eq_getElem?, List.getElem?_set_self', List.getElem?_eq_getElem hlt]
  simp

theorem listGetSet_ne (l : List Room) (n m : Nat) (a : Room) (h : n ≠ m) :
    (l.set n a).get? m = l.get? m := by
  rw [List.get?_eq_getElem?, List.get?_eq_getElem?, List.getElem?_set_ne h]

theorem listGetAppend (l l2 : List Room) (n : Nat) (h : n < l.length) :
    (l ++ l2).get? n = l.get? n := by
  rw [List.get?_eq_getElem?, List.get?_eq_getElem?, List.getElem?_append_left h]

theorem closeRoom_heap (st : RMState) (rid : String) : (closeRoom st rid).1.heap = st.heap := by
  unfold closeRoom
  split
  · rfl
  · split
    · rfl
    · split
      · rfl
      · rfl

theorem channelClose_heap (st : RMState) (pid : String) :
    (channelClose st pid).1.heap = st.heap := by
  unfold channelClose
  split
  · rfl
  · exact closeRoom_heap st _
  · split
    · rfl
    · rfl

theorem rmStep_preserves_host (st : RMState) (e : RMEvent) (addr : Nat) (r : Room)
    (h : st.heap.get? addr = some r) :
    ∃ r2, (rmStep st e).heap.get? addr = some r2 ∧ r2.host = r.host ∧ r2.id = r.id := by
  cases e with
  | closeRoomEv rid =>
      refine ⟨r, ?_, rfl, rfl⟩
      rw [rmStep, closeRoom_heap st rid]
      exact h
  | channelCloseEv pid =>
      refine ⟨r, ?_, rfl, rfl⟩
      rw [rmStep, channelClose_heap st pid]
      exact h
  | joinEv p rid hf =>
      cases hf with
      | true =>
          refine ⟨r, ?_, rfl, rfl⟩
          simp only [rmStep, join, if_pos]
          rw [listGetAppend _ _ _ (listGetLt st.heap addr r h)]
          exact h
      | false =>
          cases hrm : mapGet st.rooms rid with
          | none =>
              refine ⟨r, ?_, rfl, rfl⟩
              simp [rmStep, join, hrm]
              simpa using h
          | some addrJ =>
              cases hg : st.heap.get? addrJ with
              | none =>
                  refine ⟨r, ?_, rfl, rfl⟩
                  have hg2 : st.heap[addrJ]? = none := by simpa using hg
                  simp [rmStep, join, hrm, hg2]
                  simpa using h
              | some room0 =>
                  have hpr : getRoomByPeerId
                      { st with
                          heap := st.heap.set addrJ { room0 with guests := room0.guests ++ [p] }
                          peers := mapSet st.peers p.pid addrJ } p.pid =
                      some { room0 with guests := room0.guests ++ [p] } := by
                    simp only [getRoomByPeerId, mapGet_mapSet_self, Option.bind_some]
                    exact listGetSet_self st.heap addrJ _ room0 hg
                  by_cases haddr : addr = addrJ
                  · subst haddr
                    have hr0 : room0 = r := by
                      rw [h] at hg
                      exact (Option.some.inj hg).symm
                    subst hr0
                    refine ⟨{ room0 with guests := room0.guests ++ [p] }, ?_, rfl, rfl⟩
                    simp only [rmStep, join, Bool.false_eq_true, if_false, hrm, hg, hpr,
                      sendBroadcast]
                    exact listGetSet_self st.heap addr _ room0 h
                  · refine ⟨r, ?_, rfl, rfl⟩
                    simp only [rmStep, join, Bool.false_eq_true, if_false, hrm, hg, hpr,
                      sendBroadcast]
                    rw [listGetSet_ne st.heap addrJ addr _ (fun hh => haddr hh.symm)]
                    exact h

/-- The room created by the demo host join, before any guest. -/
def demoHostRoom : Room := { id := "R1", host := alicePeer, guests := [] }

/-- C6: every room value satisfies peers = host :: guests (the RoomImpl peers
getter), and every room-manager operation (join as host or guest, closeRoom,
channel close) preserves the host and the id of every allocated room, so a
room keeps exactly one host, unchanged for its whole lifetime, and its peers
list is always the host followed by the guests in join order. -/
theorem C6_room_shape_invariant (st : RMState) (e : RMEvent) (addr : Nat) (r : Room)
    (h : st.heap.get? addr = some r) :
    r.peers = r.host :: r.guests ∧
    ((rmStep st e).heap.get? addr).map Room.host = some r.host ∧
    ((rmStep st e).heap.get? addr).map Room.id = some r.id ∧
    (∀ r3 : Room, r3.peers = r3.host :: r3.guests) := by
  obtain ⟨r2, h2, hh, hi⟩ := rmStep_preserves_host st e addr r h
  refine ⟨rfl, ?_, ?_, fun r3 => rfl⟩
  · rw [h2]
    simpa using hh
  · rw [h2]
    simpa using hi

/-- C6 witness: Bob joining room R1 as guest preserves the host and id of the
room Alice created. -/
theorem C6_room_shape_invariant_witness :
    ((rmStep demoHostSt (RMEvent.joinEv bobPeer "R1" false)).heap.get? 0).map Room.host =
      some demoHostRoom.host ∧
    ((rmStep demoHostSt (RMEvent.joinEv bobPeer "R1" false)).heap.get? 0).map Room.id =
      some demoHostRoom.id := by
  have hc := C6_room_shape_invariant demoHostSt (RMEvent.joinEv bobPeer "R1" false) 0
    demoHostRoom (by decide)
  exact ⟨hc.2.1, hc.2.2.1⟩

/-- C10: join(peer, roomId, true) installs a new Room under roomId without
checking for an existing room: with a room already installed at oldAddr, the
call still succeeds, rebinds roomId in the rooms map to the freshly allocated
room, leaves the replaced Room object itself unchanged on the heap, and
leaves every other entry of the peer index untouched, so members of the
replaced room stay indexed to the stale Room object. -/
theorem C10_host_join_overwrites (st : RMState) (peer : PeerData) (roomId : String)
    (oldAddr : Nat) (_hold : mapGet st.rooms roomId = some oldAddr)
    (hlt : oldAddr < st.heap.length) :
    join st peer roomId true =
      Except.ok
        ({ st with
            heap := st.heap ++ [{ id := roomId, host := peer, guests := [] }]
            rooms := mapSet st.rooms roomId st.heap.length
            peers := mapSet st.peers peer.pid st.heap.length
            onClose := mapSet st.onClose peer.pid (CloseHandler.hostClose roomId) },
          { id := roomId, host := peer, guests := [] },
          [Effect.notify peer.pid
            (NotificationMessage.create peerInfoMethod [ParamValue.peer peer.toProtocol])]) ∧
    mapGet (joinSt st peer roomId true).rooms roomId = some st.heap.length ∧
    st.heap.length ≠ oldAddr ∧
    (joinSt st peer roomId true).heap.get? oldAddr = st.heap.get? oldAddr ∧
    (∀ q, q ≠ peer.pid → mapGet (joinSt st peer roomId true).peers q = mapGet st.peers q) := by
  refine ⟨rfl, ?_, Ne.symm (Nat.ne_of_lt hlt), ?_, ?_⟩
  · simp [joinSt, join, mapGet_mapSet_self]
  · simp only [joinSt, join, if_pos]
    exact listGetAppend st.heap _ oldAddr hlt
  · intro q hq
    simp only [joinSt, join, if_pos]
    exact mapGet_mapSet_ne st.peers peer.pid q _ hq

/-- C10 witness: Carol presenting a host claim for the already-active room R1
replaces the room while Bob stays indexed to the stale object at address 0. -/
theorem C10_host_join_overwrites_witness :
    mapGet (joinSt demoSt carolPeer "R1" true).rooms "R1" = some demoSt.heap.length ∧
    demoSt.heap.length ≠ 0 ∧
    (joinSt demoSt carolPeer "R1" true).heap.get? 0 = demoSt.heap.get? 0 := by
  have hc := C10_host_join_overwrites demoSt carolPeer "R1" 0 (by decide) (by decide)
  exact ⟨hc.2.1, hc.2.2.1, hc.2.2.2.1⟩

/-- Discriminator for channel-delivery effects. -/
def Effect.isDeliver : Effect → Bool
  | Effect.deliver _ _ => true
  | _ => false

/-- C3 counterexample: in the demo state where Alice hosts R1 and Bob joined
as guest, processing the channel-close event of Bob's channel leaves Bob both
in room.guests and in the peer index, refuting the claim that a departed
guest is never left in room.guests or in the peer index after its channel
has closed. -/
theorem C3_guest_not_removed_counterexample :
    mapGet (channelClose demoSt "pidB").1.peers "pidB" = some 0 ∧
    ((channelClose demoSt "pidB").1.heap.get? 0).map (fun r => r.guests.map PeerData.pid) =
      some ["pidB"] := by decide

/-- C3 amended: when a guest's channel closes, the broker only emits the
room/left broadcast and removes nothing (membership and the peer index are
unchanged); when a host's channel closes, closeRoom first emits the
room/closed broadcast, computed from the still-intact membership, and only
then removes every member from the peer index and deletes the rooms
entry. -/
theorem C3_close_order_amended (st : RMState) (pid : String) :
    (∀ peer, mapGet st.onClose pid = some (CloseHandler.guestLeft peer) →
      (channelClose st pid).1 = st ∧ (channelClose st pid).2.all Effect.isDeliver = true) ∧
    (∀ rid addr room hr,
      mapGet st.onClose pid = some (CloseHandler.hostClose rid) →
      mapGet st.rooms rid = some addr →
      st.heap.get? addr = some room →
      getRoomByPeerId st room.host.pid = some hr →
      (mapKeys st.rooms).Nodup →
      (mapKeys st.peers).Nodup →
      mapGet (channelClose st pid).1.rooms rid = none ∧
      (∀ p2 ∈ room.peers, mapGet (channelClose st pid).1.peers p2.pid = none) ∧
      (channelClose st pid).2 =
        (hr.peers.filter (fun q => q.pid != room.host.pid)).map
          (fun q => Effect.deliver q.pid
            (BroadcastMessage.create roomClosedMethod room.host.pid [])) ++
        room.peers.map (fun p2 => Effect.closeChannel p2.pid)) := by
  constructor
  · intro peer hcl
    constructor
    · simp only [channelClose, hcl]
      split
      · rfl
      · rfl
    · simp only [channelClose, hcl]
      split
      · rw [List.all_eq_true]
        intro eff heff
        rw [List.mem_map] at heff
        obtain ⟨d, hd, rfl⟩ := heff
        rfl
      · rfl
  · intro rid addr room hr hcl hrm hg hhr hndr hndp
    have hsb : sendBroadcast (getRoomByPeerId st room.host.pid) room.host
        (BroadcastMessage.create roomClosedMethod room.host.pid []) =
        Except.ok (BroadcastMessage.create roomClosedMethod room.host.pid [],
          (hr.peers.filter (fun q => q.pid != room.host.pid)).map
            (fun q => (q.pid, BroadcastMessage.create roomClosedMethod room.host.pid []))) := by
      rw [hhr]
      simp [sendBroadcast, BroadcastMessage.create]
    refine ⟨?_, ?_, ?_⟩
    · simp only [channelClose, hcl, closeRoom, hrm, hg, hsb]
      exact mapGet_mapDelete_self st.rooms rid hndr
    · intro p2 hp2
      simp only [channelClose, hcl, closeRoom, hrm, hg, hsb]
      exact mapGet_foldl_delete room.peers st.peers p2 hndp hp2
    · simp only [channelClose, hcl, closeRoom, hrm, hg, hsb]
      simp [List.map_map, Function.comp]

/-- C3 amended witness: Bob's guest close leaves the demo state unchanged and
emits only deliveries; Alice's host close removes the rooms entry for R1. -/
theorem C3_close_order_amended_witness :
    ((channelClose demoSt "pidB").1 = demoSt ∧
      (channelClose demoSt "pidB").2.all Effect.isDeliver = true) ∧
    mapGet (channelClose demoSt "pidA").1.rooms "R1" = none := by
  have hguest := (C3_close_order_amended demoSt "pidB").1 bobPeer (by decide)
  have hhost := (C3_close_order_amended demoSt "pidA").2 "R1" 0 demoRoom demoRoom
    (by decide) (by decide) (by decide) (by decide) (by decide) (by decide)
  exact ⟨hguest, hhost.1⟩
